import Mathlib

/-!
Verification development for the bw-export repository.

The repository exports Avendesora password-manager accounts to files that
BitWarden can read in (CSV or JSON).  The
packaging metadata lives in `src/setup.py`;
the core transform (Field Mapper, Record Serializer, Export Driver) is
specified in the design document.  This file gives a shallow embedding of
both and proves the specified properties about them.
-/

namespace BwExport

/-! ## Python string helpers used by src/setup.py

`setup.py` computes `scripts = 'bw-csv-export bw-json-export'.split()` and
`keywords = 'personal finance'.splitlines()`.  We embed the semantics of
Python's `str.split()` (no separator argument: split on runs of whitespace,
dropping empty pieces) and `str.splitlines()` (split on line-boundary
characters, no trailing empty element). -/

/-- Whitespace characters recognised by Python's `str.split()` (ASCII part;
the inputs in `setup.py` are ASCII). -/
def pyIsSpace (c : Char) : Bool :=
  c = ' ' || c = '\t' || c = '\n' || c = '\x0d' || c = '\x0b' || c = '\x0c'

/-- Worker for `pySplit`: `acc` holds the current word, reversed. -/
def pySplitAux : List Char → List Char → List String
  | [], [] => []
  | [], acc => [String.mk acc.reverse]
  | c :: rest, acc =>
    if pyIsSpace c then
      match acc with
      | [] => pySplitAux rest []
      | _ :: _ => String.mk acc.reverse :: pySplitAux rest []
    else
      pySplitAux rest (c :: acc)

/-- Python's `str.split()` with no arguments: split on runs of whitespace,
discarding empty strings. -/
def pySplit (s : String) : List String :=
  pySplitAux s.toList []

/-- Line-boundary characters recognised by Python's `str.splitlines()`. -/
def pyIsLineBreak (c : Char) : Bool :=
  c = '\n' || c = '\x0d' || c = '\x0b' || c = '\x0c' ||
  c = '\x1c' || c = '\x1d' || c = '\x1e' || c = '\x85' ||
  c = '\u2028' || c = '\u2029'

/-- Worker for `pySplitlines`: `acc` holds the current line, reversed; the
flag records that the previous character was a carriage return, so that a
following `\n` is absorbed into the same line boundary. -/
def pySplitlinesAux : Bool → List Char → List Char → List String
  | _, [], [] => []
  | _, [], acc => [String.mk acc.reverse]
  | afterCR, c :: rest, acc =>
    if afterCR && c = '\n' then
      pySplitlinesAux false rest acc
    else if c = '\x0d' then
      String.mk acc.reverse :: pySplitlinesAux true rest []
    else if pyIsLineBreak c then
      String.mk acc.reverse :: pySplitlinesAux false rest []
    else
      pySplitlinesAux false rest (c :: acc)

/-- Python's `str.splitlines()`: split at line-boundary characters, with no
trailing empty string. -/
def pySplitlines (s : String) : List String :=
  pySplitlinesAux false s.toList []

/-! ## The module-level execution of src/setup.py

`setup.py` first opens `README.rst` at module top level (unguarded), then
calls `setup(...)` with literal metadata.  We model the metadata record and
the top-level control flow: if the README file is absent, the open raises
and `setup` is never reached. -/

/-- The keyword arguments passed to `setup(...)` in `src/setup.py` that are
computed from expressions (plus the ones the claims mention). -/
structure PackageMetadata where
  name : String
  version : String
  description : String
  long_description : String
  scripts : List String
  install_requires : List String
  keywords : List String
deriving Repr, DecidableEq

/-- Errors that abort `setup.py` before `setup()` runs. -/
inductive SetupError
  | readmeNotFound
deriving Repr, DecidableEq

/-- The `scripts` argument of `setup(...)`:
`'bw-csv-export bw-json-export'.split()` (src/setup.py line 18). -/
def setupScripts : List String :=
  pySplit "bw-csv-export bw-json-export"

/-- The `keywords` argument of `setup(...)`:
`'personal finance'.splitlines()` (src/setup.py line 21). -/
def setupKeywords : List String :=
  pySplitlines "personal finance"

/-- Module-level execution of `src/setup.py`.  The argument is the content of
`README.rst` if the file exists and is readable, `none` otherwise.  The
`with open('README.rst') ...` statement at lines 3-4 is unguarded, so a
missing README raises before `setup(...)` is called and no metadata is
produced. -/
def runSetupPy (readmeFile : Option String) : Except SetupError PackageMetadata :=
  match readmeFile with
  | none => .error .readmeNotFound
  | some readme =>
    .ok {
      name := "bw-export"
      version := "0.0.0"
      description := "export Avendesora accounts to BitWarden"
      long_description := readme
      scripts := setupScripts
      install_requires := pySplit "inform>=1.25"
      keywords := setupKeywords
    }

/-! ## Core data model (Field Mapper / Record Serializer / Export Driver)

The two exported scripts (`bw-csv-export`, `bw-json-export`) are not part of
the packaged sources; the transform they implement is given by the design
specification, so the definitions below are modelled from the spec. -/

/-- Modelled from the spec: a security question/answer pair of a
`SourceAccount` (spec section 3). -/
structure SQPair where
  question : String
  answer : String
deriving Repr, DecidableEq

/-- Modelled from the spec: a `SourceAccount` record from the source store
(spec section 3): `title`, optional `username` and `password`, an ordered
sequence of `urls`, optional `notes`, ordered custom `fields`, and optional
`security_questions`.  `title` is `Option String` so that an absent title is
representable (spec section 4.1 error condition). -/
structure SourceAccount where
  title : Option String
  username : Option String
  password : Option String
  urls : List String
  notes : Option String
  fields : List (String × String)
  security_questions : List SQPair
deriving Repr, DecidableEq

/-- Modelled from the spec: the target record type enum
(login | note | card | identity); this system only produces `login` or
`note` (spec section 3). -/
inductive RecordType
  | login
  | note
  | card
  | identity
deriving Repr, DecidableEq, Inhabited

/-- Modelled from the spec: one custom/unmapped field of an `ImportRecord`
(name and value; the `type` marker of spec section 4.2 is computed from the
name by the JSON serializer). -/
structure Field where
  name : String
  value : String
deriving Repr, DecidableEq

/-- Modelled from the spec: an `ImportRecord`, the target schema's
row/object with its fixed attributes (spec section 3). -/
structure ImportRecord where
  folder : String
  favorite : Bool
  type : RecordType
  name : String
  notes : String
  fields : List Field
  login_uri : String
  login_username : String
  login_password : String
  login_totp : String
deriving Repr, DecidableEq, Inhabited

/-- Modelled from the spec: the Field Mapper's error taxonomy
(spec section 7): `MissingTitle` is the only per-record mapping error. -/
inductive MappingError
  | MissingTitle
deriving Repr, DecidableEq

/-- Modelled from the spec: whether a `SourceAccount`'s title is empty or
absent (spec section 4.1 error condition). -/
def titleMissing (a : SourceAccount) : Bool :=
  match a.title with
  | none => true
  | some s => s.isEmpty

/-- Modelled from the spec: the additional `fields` entries `url2`, `url3`,
… produced from the URLs after the first, in original order (spec section
4.1).  `n` is the number given to the next URL. -/
def urlExtraFields : Nat → List String → List Field
  | _, [] => []
  | n, u :: rest =>
    { name := "url" ++ toString n, value := u } :: urlExtraFields (n + 1) rest

/-- Modelled from the spec: the `fields` entries `security question N` /
`security answer N` rendered from the security questions, preserving pairing
and order (spec section 4.1).  `n` is the number given to the next pair. -/
def sqFields : Nat → List SQPair → List Field
  | _, [] => []
  | n, q :: rest =>
    { name := "security question " ++ toString n, value := q.question } ::
    { name := "security answer " ++ toString n, value := q.answer } ::
    sqFields (n + 1) rest

/-- Modelled from the spec: pick a fresh name for a source field whose name
collides with an already-used name, by suffixing a counter: `name`,
`name (2)`, `name (3)`, … (spec section 4.1).  The fuel argument of the
worker bounds the search; `seen.length + 1` candidates always suffice. -/
def freshNameFrom (seen : List String) (n : String) : Nat → Nat → String
  | 0, k => n ++ " (" ++ toString k ++ ")"
  | fuel + 1, k =>
    let cand := n ++ " (" ++ toString k ++ ")"
    if seen.contains cand then freshNameFrom seen n fuel (k + 1) else cand

/-- Modelled from the spec: the disambiguated name of a source field given
the names already used (spec section 4.1). -/
def freshName (seen : List String) (n : String) : String :=
  if seen.contains n then freshNameFrom seen n (seen.length + 1) 2 else n

/-- Modelled from the spec: copy the source's custom fields through in
order, disambiguating duplicate names against earlier names with the counter
suffix (spec section 4.1). -/
def copyFields (seen : List String) : List (String × String) → List Field
  | [] => []
  | (nm, v) :: rest =>
    let nm2 := freshName seen nm
    { name := nm2, value := v } :: copyFields (nm2 :: seen) rest

/-- Modelled from the spec: the full `fields` sequence of the mapped record:
secondary URLs, then security questions, then the source's custom fields
(spec section 4.1). -/
def mappedFields (a : SourceAccount) : List Field :=
  let derived := urlExtraFields 2 a.urls.tail ++ sqFields 1 a.security_questions
  derived ++ copyFields (derived.map Field.name) a.fields

/-- Modelled from the spec: the Field Mapper,
`map : SourceAccount -> Result ImportRecord MappingError` (spec section
4.1): fails with `MissingTitle` when the title is empty or absent, otherwise
builds the import record: `type` is `login` when a password, username or URL
is present, else `note`; `name` is the title verbatim; `login_uri` is the
first URL or empty; `login_username`/`login_password` are copied verbatim or
empty; `notes` is the source notes or empty; `fields` as in
`mappedFields`. -/
def map (a : SourceAccount) : Except MappingError ImportRecord :=
  if titleMissing a then
    .error .MissingTitle
  else
    .ok {
      folder := ""
      favorite := false
      type :=
        if a.password.isSome || a.username.isSome || !a.urls.isEmpty then
          .login
        else
          .note
      name := a.title.getD ""
      notes := a.notes.getD ""
      fields := mappedFields a
      login_uri := a.urls.headD ""
      login_username := a.username.getD ""
      login_password := a.password.getD ""
      login_totp := ""
    }

/-! ## Record Serializer -/

/-- Modelled from the spec: characters that force CSV quoting of a value:
the field delimiter, the quote character, or a line break
(spec section 4.2). -/
def csvSpecialChar (c : Char) : Bool :=
  c == ',' || c == '"' || c == '\n' || c == '\x0d'

/-- Modelled from the spec: whether a CSV value must be quoted. -/
def csvNeedsQuote (s : List Char) : Bool :=
  s.any csvSpecialChar

/-- Modelled from the spec: double each quote character inside a quoted
field (standard CSV quoting, spec section 4.2). -/
def escQuotes : List Char → List Char
  | [] => []
  | c :: rest =>
    if c = '"' then '"' :: '"' :: escQuotes rest else c :: escQuotes rest

/-- Modelled from the spec: render one CSV cell: quote (with doubled inner
quotes) exactly when the value contains a delimiter, quote, or line break
(spec section 4.2). -/
def csvFieldChars (s : List Char) : List Char :=
  if csvNeedsQuote s then '"' :: (escQuotes s ++ ['"']) else s

/-- `csvFieldChars` on strings. -/
def csvField (s : String) : String :=
  String.mk (csvFieldChars s.toList)

/-- A standard CSV reader's scan of a quoted field after its opening quote:
the flag records that the previous character was a quote (and the reader
must decide whether it was doubled or closing).  Returns the field content
and the unconsumed input.  Used to state the spec's round-trip property
(spec section 8). -/
def csvReadQuotedAux : Bool → List Char → Option (List Char × List Char)
  | false, [] => none
  | true, [] => some ([], [])
  | false, c :: rest =>
    if c = '"' then csvReadQuotedAux true rest
    else (csvReadQuotedAux false rest).map (fun p => (c :: p.1, p.2))
  | true, c :: rest =>
    if c = '"' then (csvReadQuotedAux false rest).map (fun p => ('"' :: p.1, p.2))
    else some ([], c :: rest)

/-- Characters that end an unquoted CSV field for a standard reader. -/
def csvUnquotedEnd (c : Char) : Bool :=
  c == ',' || c == '\n' || c == '\x0d'

/-- A standard CSV reader's scan of one field at the start of the input:
a leading quote starts a quoted field, otherwise the field runs to the next
delimiter or line break.  Used to state the round-trip property. -/
def csvReadField (s : List Char) : Option (List Char × List Char) :=
  match s with
  | [] => some ([], [])
  | c :: rest =>
    if c = '"' then csvReadQuotedAux false rest
    else
      some ((c :: rest).takeWhile (fun ch => !csvUnquotedEnd ch),
            (c :: rest).dropWhile (fun ch => !csvUnquotedEnd ch))

/-- Modelled from the spec: the fixed CSV header row in the target import
tool's required column order (spec section 6). -/
def csvHeader : String :=
  "folder,favorite,type,name,notes,fields,reprompt,login_uri,login_username,login_password,login_totp"

/-- The name of a record type in the target schema. -/
def typeName : RecordType → String
  | .login => "login"
  | .note => "note"
  | .card => "card"
  | .identity => "identity"

/-- Modelled from the spec: the `fields` sequence flattened into an ordered
block of `name: value` lines (spec section 4.2, CSV mode). -/
def fieldLines (fs : List Field) : String :=
  String.intercalate "\n" (fs.map (fun f => f.name ++ ": " ++ f.value))

/-- Modelled from the spec: the CSV `notes` cell: the record's notes with
the flattened `fields` block appended after one blank line
(spec section 4.2, CSV mode). -/
def notesCell (r : ImportRecord) : String :=
  match r.fields with
  | [] => r.notes
  | _ :: _ =>
    if r.notes.isEmpty then fieldLines r.fields
    else r.notes ++ "\n\n" ++ fieldLines r.fields

/-- Modelled from the spec: one CSV data row in the fixed column order; the
`fields` column is empty (its content is flattened into `notes`) and
`reprompt` is always emitted empty (spec sections 4.2 and 6). -/
def csvRow (r : ImportRecord) : String :=
  String.intercalate ","
    ([r.folder,
      if r.favorite then "1" else "",
      typeName r.type,
      r.name,
      notesCell r,
      "",
      "",
      r.login_uri,
      r.login_username,
      r.login_password,
      r.login_totp].map csvField)

/-- Modelled from the spec: CSV mode of the Record Serializer: one header
row, then one row per record (spec section 4.2). -/
def serializeCSV (rs : List ImportRecord) : String :=
  String.intercalate "\n" (csvHeader :: rs.map csvRow)

/-- JSON escaping of one character. -/
def jsonEscapeChar (c : Char) : List Char :=
  if c = '"' then ['\\', '"']
  else if c = '\\' then ['\\', '\\']
  else if c = '\n' then ['\\', 'n']
  else if c = '\x0d' then ['\\', 'r']
  else if c = '\t' then ['\\', 't']
  else [c]

/-- A JSON string literal for `s`. -/
def jsonStr (s : String) : String :=
  "\"" ++ String.mk (s.toList.map jsonEscapeChar).flatten ++ "\""

/-- Does `needle` occur at the head of `hay`? -/
def leadsWith : List Char → List Char → Bool
  | [], _ => true
  | _ :: _, [] => false
  | a :: as, b :: bs => a == b && leadsWith as bs

/-- Does `needle` occur anywhere inside `hay`? -/
def hasSub (needle : List Char) : List Char → Bool
  | [] => needle.isEmpty
  | c :: t => leadsWith needle (c :: t) || hasSub needle t

/-- Modelled from the spec: the fixed list of secret-name substrings
(spec section 4.2). -/
def secretPatterns : List String :=
  ["password", "secret", "key", "pin", "token"]

/-- Modelled from the spec: the `type` marker of a custom field in JSON
output: `hidden` when the lower-cased field name contains one of the secret
substrings, else `text` (spec section 4.2). -/
def fieldTypeName (nm : String) : String :=
  if secretPatterns.any (fun p => hasSub p.toList (nm.toList.map Char.toLower)) then
    "hidden"
  else
    "text"

/-- `true` / `false` as JSON. -/
def jsonBool : Bool → String
  | true => "true"
  | false => "false"

/-- A custom field as a JSON object. -/
def jsonField (f : Field) : String :=
  "\x7b\"name\": " ++ jsonStr f.name ++
  ", \"value\": " ++ jsonStr f.value ++
  ", \"type\": " ++ jsonStr (fieldTypeName f.name) ++ "\x7d"

/-- Modelled from the spec: one record as a JSON object, keys in the fixed
canonical order (spec section 4.2, JSON mode). -/
def jsonItem (r : ImportRecord) : String :=
  "\x7b\"folder\": " ++ jsonStr r.folder ++
  ", \"favorite\": " ++ jsonBool r.favorite ++
  ", \"type\": " ++ jsonStr (typeName r.type) ++
  ", \"name\": " ++ jsonStr r.name ++
  ", \"notes\": " ++ jsonStr r.notes ++
  ", \"fields\": [" ++ String.intercalate ", " (r.fields.map jsonField) ++ "]" ++
  ", \"login_uri\": " ++ jsonStr r.login_uri ++
  ", \"login_username\": " ++ jsonStr r.login_username ++
  ", \"login_password\": " ++ jsonStr r.login_password ++
  ", \"login_totp\": " ++ jsonStr r.login_totp ++ "\x7d"

/-- Modelled from the spec: JSON mode of the Record Serializer: a single
document with an `items` array (spec section 4.2). -/
def serializeJSON (rs : List ImportRecord) : String :=
  "\x7b\"items\": [" ++ String.intercalate ", " (rs.map jsonItem) ++ "]\x7d"

/-- Modelled from the spec: the two supported output formats
(spec section 4.2). -/
inductive Format
  | csv
  | json
deriving Repr, DecidableEq

/-- Modelled from the spec: the Record Serializer,
`serialize : sequence of ImportRecord -> format -> string`
(spec section 4.2). -/
def serialize (rs : List ImportRecord) : Format → String
  | .csv => serializeCSV rs
  | .json => serializeJSON rs

/-! ## Export Driver -/

/-- Modelled from the spec: the identifying title recorded for a skipped
account — its title when available, a placeholder otherwise
(spec section 4.3). -/
def placeholderTitle (a : SourceAccount) : String :=
  match a.title with
  | some t => if t.isEmpty then "(untitled)" else t
  | none => "(untitled)"

/-- Modelled from the spec: map every account in enumeration order,
collecting successful records and skipped `(title-or-placeholder, error)`
pairs; a mapping error never aborts the batch (spec section 4.3). -/
def mapAll : List SourceAccount → List ImportRecord × List (String × MappingError)
  | [] => ([], [])
  | a :: rest =>
    let p := mapAll rest
    match map a with
    | .ok r => (r :: p.1, p.2)
    | .error e => (p.1, (placeholderTitle a, e) :: p.2)

/-- Modelled from the spec: the Export Driver's report:
`ExportReport \x7b written, skipped \x7d` plus the serialized output string
(spec section 4.3). -/
structure ExportReport where
  output : String
  written : Nat
  skipped : List (String × MappingError)
deriving Repr, DecidableEq

/-- Modelled from the spec: the Export Driver, `run`: map all accounts,
serialize the collected records exactly once, and report the counts
(spec section 4.3). -/
def run (accounts : List SourceAccount) (fmt : Format) : ExportReport :=
  let p := mapAll accounts
  { output := serialize p.1 fmt
    written := p.1.length
    skipped := p.2 }

/-- The record produced by a successful mapping (a default record when the
mapping failed); used to instantiate universally quantified theorems at
concrete inputs. -/
def mapOk (a : SourceAccount) : ImportRecord :=
  ((map a).toOption).getD default

/-! ### Concrete sample inputs used to instantiate the theorems. -/

/-- A well-formed sample account (non-empty title). -/
def sampleAccount : SourceAccount :=
  { title := some "Bank"
    username := some "alice"
    password := some "s3cret"
    urls := ["https://a.example", "https://b.example"]
    notes := some "main account"
    fields := []
    security_questions := [] }

/-- The two-URL account of the spec's testable property (spec section 8). -/
def twoUrlAccount : SourceAccount :=
  { title := some "Site"
    username := none
    password := none
    urls := ["https://a.example", "https://b.example"]
    notes := none
    fields := []
    security_questions := [] }

/-- An account whose title is the empty string. -/
def emptyTitleAccount : SourceAccount :=
  { title := some ""
    username := none
    password := none
    urls := []
    notes := none
    fields := []
    security_questions := [] }

/-- A five-account batch whose third account has an empty title
(spec section 8). -/
def batch5 : List SourceAccount :=
  [ { sampleAccount with title := some "one" }
  , { sampleAccount with title := some "two" }
  , emptyTitleAccount
  , { sampleAccount with title := some "four" }
  , { sampleAccount with title := some "five" } ]

end BwExport

namespace BwExport

/-- **C1.** The `scripts` value `'bw-csv-export bw-json-export'.split()` in
`src/setup.py` evaluates to exactly the two-element list
`["bw-csv-export", "bw-json-export"]`, in that order: the system exposes
exactly these two CLI entry points. -/
theorem setupScripts_eq :
    setupScripts = ["bw-csv-export", "bw-json-export"] ∧ setupScripts.length = 2 := by
  constructor <;> decide

/-- **C9.** The `keywords` metadata computed in `src/setup.py` is the
single-element list `["personal finance"]`: `'personal finance'` contains no
line break, so `.splitlines()` yields one keyword containing a space, not two
keywords. -/
theorem setupKeywords_eq :
    setupKeywords = ["personal finance"] ∧ setupKeywords.length = 1 := by
  constructor <;> decide

/-- **C10.** Running `src/setup.py` requires a readable `README.rst`: the
unguarded `open('README.rst')` at module top level means that when the file
is absent the script fails before `setup()` is called, and no package
metadata is produced. -/
theorem runSetupPy_no_readme :
    runSetupPy none = .error .readmeNotFound ∧ ∀ m, runSetupPy none ≠ .ok m := by
  refine ⟨rfl, ?_⟩
  intro m h
  simp [runSetupPy] at h

/-! ## Field Mapper properties -/

theorem titleMissing_iff (a : SourceAccount) :
    titleMissing a = true ↔ (a.title = none ∨ a.title = some "") := by
  cases h : a.title with
  | none => simp [titleMissing, h]
  | some s => simp [titleMissing, h, String.isEmpty_iff]

/-- **C2.** For every `SourceAccount` whose title is a non-empty string,
`map` succeeds and the resulting record's `name` equals the input title
exactly, with no truncation or escaping. -/
theorem map_succeeds_name_eq_title (a : SourceAccount) (s : String)
    (h1 : a.title = some s) (h2 : s ≠ "") :
    ∃ r, map a = Except.ok r ∧ r.name = s := by
  have hm : titleMissing a = false := by
    rw [Bool.eq_false_iff]
    intro hc
    rcases (titleMissing_iff a).mp hc with h | h
    · rw [h1] at h; cases h
    · rw [h1] at h
      exact h2 (by injection h)
  unfold map
  rw [hm]
  simp only [Bool.false_eq_true, if_false]
  exact ⟨_, rfl, by simp [h1]⟩

/-- Witness for C2 at a concrete account. -/
theorem map_succeeds_name_eq_title_witness :
    ∃ r, map sampleAccount = Except.ok r ∧ r.name = "Bank" :=
  map_succeeds_name_eq_title sampleAccount "Bank" rfl (by decide)

/-- **C3.** `map` fails if and only if the title is empty or absent, and
every failure is `MappingError.MissingTitle` (the quantification over all
errors covers "for no other input does map fail" together with "fails with
MissingTitle"). -/
theorem map_error_iff_title_missing (a : SourceAccount) :
    ∀ e : MappingError,
      map a = Except.error e ↔ (a.title = none ∨ a.title = some "") := by
  intro e
  cases e
  rw [← titleMissing_iff]
  unfold map
  by_cases hm : titleMissing a = true
  · simp [hm]
  · simp [hm]

/-- Witness for C3 at a concrete account with an empty title. -/
theorem map_error_iff_title_missing_witness :
    map emptyTitleAccount = Except.error MappingError.MissingTitle :=
  (map_error_iff_title_missing emptyTitleAccount MappingError.MissingTitle).mpr
    (by decide)

/-- **C4.** For every account accepted by `map`, the record's `type` is
`login` iff at least one of password, username, or a URL is present;
otherwise the type is `note`. -/
theorem map_type_login_iff (a : SourceAccount) (r : ImportRecord)
    (h : map a = Except.ok r) :
    (r.type = RecordType.login ↔
      (a.password.isSome = true ∨ a.username.isSome = true ∨ a.urls ≠ [])) ∧
    (¬(a.password.isSome = true ∨ a.username.isSome = true ∨ a.urls ≠ []) →
      r.type = RecordType.note) := by
  have hiff : ((a.password.isSome || a.username.isSome || !a.urls.isEmpty) = true) ↔
      (a.password.isSome = true ∨ a.username.isSome = true ∨ a.urls ≠ []) := by
    simp [List.isEmpty_iff, or_assoc]
  unfold map at h
  by_cases hm : titleMissing a = true
  · rw [if_pos hm] at h
    exact absurd h (by simp)
  · rw [if_neg hm] at h
    injection h with h
    have htype : r.type =
        if a.password.isSome || a.username.isSome || !a.urls.isEmpty then
          RecordType.login
        else
          RecordType.note := by
      rw [← h]
    rw [htype]
    by_cases hc : (a.password.isSome || a.username.isSome || !a.urls.isEmpty) = true
    · rw [if_pos hc]
      exact ⟨⟨fun _ => hiff.mp hc, fun _ => rfl⟩,
             fun hnp => absurd (hiff.mp hc) hnp⟩
    · rw [if_neg hc]
      refine ⟨⟨fun hne => ?_, fun hp => absurd (hiff.mpr hp) hc⟩, fun _ => rfl⟩
      cases hne

/-- Witness for C4: `sampleAccount` has a password, and its mapped record
has type `login`. -/
theorem map_type_login_iff_witness :
    (mapOk sampleAccount).type = RecordType.login :=
  (map_type_login_iff sampleAccount (mapOk sampleAccount) rfl).1.mpr
    (by decide)

theorem urlExtraFields_length (n : Nat) (us : List String) :
    (urlExtraFields n us).length = us.length := by
  induction us generalizing n with
  | nil => rfl
  | cons u rest ih => simp [urlExtraFields, ih]

theorem urlExtraFields_getElem (n i : Nat) (us : List String)
    (h : i < us.length) :
    (urlExtraFields n us)[i]? =
      some { name := "url" ++ toString (n + i), value := us.getD i "" } := by
  induction us generalizing n i with
  | nil => simp at h
  | cons u rest ih =>
    cases i with
    | zero => simp [urlExtraFields]
    | succ j =>
      have hj : j < rest.length := by simpa using h
      simp only [urlExtraFields, List.getElem?_cons_succ]
      rw [ih (n + 1) j hj, List.getD_cons_succ,
        show n + (j + 1) = (n + 1) + j from by omega]

theorem tail_getD (l : List String) (i : Nat) (d : String) :
    l.tail.getD i d = l.getD (i + 1) d := by
  cases l with
  | nil => rfl
  | cons a t => rfl

/-- **C5.** For every account with a non-empty `urls` sequence, `map` sets
`login_uri` to the first URL and appends, for each remaining URL in original
order, a `fields` entry named `url2`, `url3`, …; with empty `urls`,
`login_uri` is empty.  The final conjunct is the spec's concrete two-URL
example. -/
theorem map_login_uri_spec (a : SourceAccount) (r : ImportRecord)
    (h : map a = Except.ok r) :
    (a.urls ≠ [] →
      r.login_uri = a.urls.headD "" ∧
      ∀ i, i + 1 < a.urls.length →
        r.fields[i]? =
          some { name := "url" ++ toString (i + 2), value := a.urls.getD (i + 1) "" }) ∧
    (a.urls = [] → r.login_uri = "") ∧
    (map twoUrlAccount).toOption.map (fun r2 => (r2.login_uri, r2.fields[0]?)) =
      some ("https://a.example", some { name := "url2", value := "https://b.example" }) := by
  unfold map at h
  by_cases hm : titleMissing a = true
  · rw [if_pos hm] at h
    exact absurd h (by simp)
  · rw [if_neg hm] at h
    injection h with h
    have huri : r.login_uri = a.urls.headD "" := by rw [← h]
    have hfields : r.fields = mappedFields a := by rw [← h]
    refine ⟨fun _ => ⟨huri, ?_⟩, fun he => by rw [huri, he]; rfl, by decide⟩
    intro i hi
    have hlen : i < a.urls.tail.length := by
      rw [List.length_tail]; omega
    have hlen2 : i < (urlExtraFields 2 a.urls.tail).length := by
      rw [urlExtraFields_length]; exact hlen
    rw [hfields]
    show ((urlExtraFields 2 a.urls.tail ++ sqFields 1 a.security_questions) ++
      copyFields _ a.fields)[i]? = _
    rw [List.getElem?_append,
      if_pos (by rw [List.length_append]; omega),
      List.getElem?_append, if_pos hlen2,
      urlExtraFields_getElem 2 i a.urls.tail hlen,
      tail_getD, show 2 + i = i + 2 from by omega]

/-- Witness for C5 at the spec's two-URL account. -/
theorem map_login_uri_spec_witness :
    (mapOk twoUrlAccount).login_uri = twoUrlAccount.urls.headD "" :=
  ((map_login_uri_spec twoUrlAccount (mapOk twoUrlAccount) rfl).1
    (by decide)).1

/-! ## Record Serializer properties -/

theorem csvReadQuotedAux_escQuotes (s : List Char) :
    csvReadQuotedAux false (escQuotes s ++ ['"']) = some (s, []) := by
  induction s with
  | nil => rfl
  | cons c t ih =>
    by_cases hc : c = '"'
    · subst hc
      simp [escQuotes, csvReadQuotedAux, ih]
    · simp [escQuotes, csvReadQuotedAux, hc, ih]

theorem csvReadField_plain (s : List Char) (hq : csvNeedsQuote s = false) :
    csvReadField s = some (s, []) := by
  have hall : ∀ c ∈ s, csvSpecialChar c = false := by
    intro c hc
    unfold csvNeedsQuote at hq
    rw [List.any_eq_false] at hq
    exact Bool.eq_false_iff.mpr (hq c hc)
  have hend : ∀ c ∈ s, (!csvUnquotedEnd c) = true := by
    intro c hc
    have h1 := hall c hc
    simp only [csvSpecialChar, Bool.or_eq_false_iff] at h1
    simp [csvUnquotedEnd, h1.1.1.1, h1.1.2, h1.2]
  have ht : s.takeWhile (fun ch => !csvUnquotedEnd ch) = s :=
    List.takeWhile_eq_self_iff.mpr hend
  have hd : s.dropWhile (fun ch => !csvUnquotedEnd ch) = [] :=
    List.dropWhile_eq_nil_iff.mpr hend
  cases s with
  | nil => rfl
  | cons c rest =>
    have hc : ¬(c = '"') := by
      intro he
      have h1 := hall c (by simp)
      rw [he] at h1
      simp [csvSpecialChar] at h1
    simp only [csvReadField, if_neg hc]
    rw [ht, hd]

/-- **C6.** In CSV serialization, every value containing the field
delimiter, quote character, or a line break is quoted with inner quotes
doubled, and a standard CSV reader parses the emitted field back to exactly
the original value; in particular the notes value `He said, "hi"` serializes
as `"He said, ""hi"""`. -/
theorem csv_quoting_roundtrip (s : List Char) :
    csvReadField (csvFieldChars s) = some (s, []) ∧
    (csvNeedsQuote s = true → csvFieldChars s = '"' :: (escQuotes s ++ ['"'])) ∧
    csvField "He said, \"hi\"" = "\"He said, \"\"hi\"\"\"" := by
  refine ⟨?_, fun hq => by rw [csvFieldChars, if_pos hq], by decide⟩
  by_cases hq : csvNeedsQuote s = true
  · rw [csvFieldChars, if_pos hq]
    simp only [csvReadField, if_pos rfl]
    exact csvReadQuotedAux_escQuotes s
  · rw [csvFieldChars, if_neg hq]
    exact csvReadField_plain s (Bool.eq_false_iff.mpr hq)

/-- Witness for C6 at the spec's concrete notes value. -/
theorem csv_quoting_roundtrip_witness :
    csvReadField (csvFieldChars "He said, \"hi\"".toList) =
      some ("He said, \"hi\"".toList, []) :=
  (csv_quoting_roundtrip "He said, \"hi\"".toList).1

/-- **C7.** Serialization is deterministic: for any two runs over the
identical sequence of `ImportRecord`s, both the CSV output and the JSON
output are byte-identical strings — the output is a pure function of the
input, with no timestamps or nondeterministic ordering. -/
theorem serialize_deterministic (rs₁ rs₂ : List ImportRecord) (h : rs₁ = rs₂) :
    serialize rs₁ Format.csv = serialize rs₂ Format.csv ∧
    serialize rs₁ Format.json = serialize rs₂ Format.json := by
  subst h
  exact ⟨rfl, rfl⟩

/-- Witness for C7 on a concrete record sequence. -/
theorem serialize_deterministic_witness :
    serialize [mapOk sampleAccount] Format.csv =
      serialize [mapOk sampleAccount] Format.csv ∧
    serialize [mapOk sampleAccount] Format.json =
      serialize [mapOk sampleAccount] Format.json :=
  serialize_deterministic [mapOk sampleAccount] [mapOk sampleAccount] rfl

/-! ## Export Driver properties -/

theorem mapAll_length (accounts : List SourceAccount) :
    (mapAll accounts).1.length + (mapAll accounts).2.length = accounts.length := by
  induction accounts with
  | nil => rfl
  | cons a rest ih =>
    simp only [mapAll]
    cases hma : map a <;> simp <;> omega

/-- **C8.** The Export Driver never aborts on a per-record `MappingError`:
it records the failing account in `skipped` and continues, and the report
satisfies `written + length skipped = number of input accounts`; in
particular the five-account batch whose third account has an empty title
yields `written = 4` and exactly one skipped entry for that account. -/
theorem run_report_balance (accounts : List SourceAccount) (fmt : Format) :
    (run accounts fmt).written + (run accounts fmt).skipped.length =
      accounts.length ∧
    (run batch5 fmt).written = 4 ∧
    (run batch5 fmt).skipped =
      [(placeholderTitle emptyTitleAccount, MappingError.MissingTitle)] := by
  refine ⟨mapAll_length accounts, ?_, ?_⟩ <;> cases fmt <;> decide

end BwExport
